import Mathlib

/-!
Shallow embedding of the Frosty-Audio-Fixer core (src/audio/probe.py,
src/audio/convert.py, src/app/window.py) and proofs about it.

The external media tools (ffprobe, ffmpeg) and the JSON decoder are opaque
collaborators: they are modelled as function parameters (`tool`, `decode`)
so every theorem quantifies over their behaviour.  Python exceptions are
embedded as `Except` values; the filesystem and subprocess side effects of
`convert_file` are recorded as an explicit, ordered `Effect` list.
-/

/-- Result of one subprocess invocation (`subprocess.run(cmd, ...)` with
captured text stdout/stderr), as observed by the callers in probe.py and
convert.py. -/
structure ToolResult where
  returncode : Int
  stdout : String
  stderr : String
deriving DecidableEq, Repr

/-- Embeds Python `str.strip()` with no argument: remove leading and
trailing whitespace (implemented structurally on the character list so
that proofs can evaluate it). -/
def pyStrip (s : String) : String :=
  ⟨((s.data.dropWhile Char.isWhitespace).reverse.dropWhile Char.isWhitespace).reverse⟩

/-- Embeds Python `str.lower()` on the ASCII strings the source applies it
to (implemented structurally on the character list). -/
def pyLower (s : String) : String :=
  ⟨s.data.map Char.toLower⟩

/-- Embeds probe.py `_run` (lines 24-28): non-zero exit raises
`FFprobeError(p.stderr.strip() or "ffprobe failed")`, otherwise the captured
stdout is returned. -/
def ffprobe_run (p : ToolResult) : Except String String :=
  if p.returncode ≠ 0 then
    .error (if pyStrip p.stderr ≠ "" then pyStrip p.stderr else "ffprobe failed")
  else
    .ok p.stdout

/-- Embeds probe.py `AudioInfo` (lines 14-21); Python float is embedded as ℚ,
Python `Optional` as `Option`. -/
structure AudioInfo where
  path : String
  duration_s : ℚ
  sample_rate : Option Int
  channels : Option Int
  codec : Option String
  bit_rate : Option Int
deriving DecidableEq, Repr

/-- The `format` object of the ffprobe JSON as read by probe.py: only the
`duration` and `bit_rate` keys are consulted, and ffprobe prints their values
as strings.  `none` means the key is absent. -/
structure FormatObj where
  duration : Option String := none
  bit_rate : Option String := none
deriving DecidableEq, Repr

/-- One element of the `streams` array of the ffprobe JSON as read by
probe.py: only `codec_type`, `codec_name`, `sample_rate` and `channels` are
consulted.  `none` means the key is absent. -/
structure StreamObj where
  codec_type : Option String := none
  codec_name : Option String := none
  sample_rate : Option String := none
  channels : Option String := none
deriving DecidableEq, Repr

/-- The decoded ffprobe JSON document as read by probe.py:
`data.get("format") or {}` and `data.get("streams", [])`. -/
structure FfprobeJson where
  format : Option FormatObj := none
  streams : Option (List StreamObj) := none
deriving DecidableEq, Repr

/-- Reads a maximal run of decimal digits: value, number of digits consumed,
rest of the input. -/
def takeDigits (acc n : Nat) : List Char → Nat × Nat × List Char
  | [] => (acc, n, [])
  | c :: rest =>
    if c.isDigit then takeDigits (acc * 10 + (c.toNat - 48)) (n + 1) rest
    else (acc, n, c :: rest)

/-- Embeds Python `float(s)` on the string values ffprobe emits: optional
surrounding whitespace and sign, decimal digits with optional fractional part
and optional exponent ("12", "12.5", ".5", "12.", "1e3").  The special forms
inf/nan/underscored digits, which ffprobe never emits for these fields, are
not modelled and parse as failures. -/
def floatOfStr (s : String) : Option ℚ :=
  let cs := (pyStrip s).data
  let (sign, cs) : ℚ × List Char :=
    match cs with
    | '+' :: r => (1, r)
    | '-' :: r => (-1, r)
    | _ => (1, cs)
  let (ip, ipn, cs) := takeDigits 0 0 cs
  let (fp, fpn, cs) : Nat × Nat × List Char :=
    match cs with
    | '.' :: r => takeDigits 0 0 r
    | _ => (0, 0, cs)
  if ipn = 0 ∧ fpn = 0 then none
  else
    let mant : ℚ := sign * ((ip : ℚ) + (fp : ℚ) / (10 : ℚ) ^ fpn)
    match cs with
    | [] => some mant
    | 'e' :: r =>
      floatExp mant r
    | 'E' :: r =>
      floatExp mant r
    | _ => none
where
  /-- Parses the exponent part after `e`/`E` and applies it. -/
  floatExp (mant : ℚ) (r : List Char) : Option ℚ :=
    let (esign, r) : Int × List Char :=
      match r with
      | '+' :: t => (1, t)
      | '-' :: t => (-1, t)
      | _ => (1, r)
    let (ev, en, r) := takeDigits 0 0 r
    if en = 0 ∨ r ≠ [] then none
    else some (mant * (10 : ℚ) ^ (esign * (ev : Int)))

/-- Embeds Python `int(s)` on the string values ffprobe emits: optional
surrounding whitespace, optional sign, then decimal digits only. -/
def intOfStr (s : String) : Option Int :=
  let cs := (pyStrip s).data
  let (sign, cs) : Int × List Char :=
    match cs with
    | '+' :: r => (1, r)
    | '-' :: r => (-1, r)
    | _ => (1, cs)
  let (v, n, rest) := takeDigits 0 0 cs
  if n = 0 ∨ rest ≠ [] then none else some (sign * (v : Int))

/-- Embeds the stream loop of probe.py `probe_file` (lines 63-79): starting
from `sr = ch = codec = None`, scan the streams in order, and at the FIRST
stream whose `codec_type` is "audio" take `codec_name` as is and
`sample_rate`/`channels` through `int(...)` guarded by try/except, then
`break`.  Streams of any other type are skipped untouched. -/
def firstAudioFields : List StreamObj → Option Int × Option Int × Option String
  | [] => (none, none, none)
  | s :: rest =>
    if s.codec_type = some "audio" then
      ((match s.sample_rate with
        | some v => intOfStr v
        | none => none),
       (match s.channels with
        | some v => intOfStr v
        | none => none),
       s.codec_name)
    else firstAudioFields rest

/-- Embeds the parsing stage of probe.py `probe_file` (lines 44-88), applied
to the already-decoded JSON document: `format.duration` must be present and
numeric or `FFprobeError("Could not determine duration")` is raised;
`format.bit_rate` and the fields of the first audio stream are best-effort
and fall back to `None`. -/
def probe_parse (path : String) (data : FfprobeJson) : Except String AudioInfo :=
  let fmt := data.format.getD {}
  let duration : Option ℚ :=
    match fmt.duration with
    | some v => floatOfStr v
    | none => none
  match duration with
  | none => .error "Could not determine duration"
  | some d =>
    let bit_rate : Option Int :=
      match fmt.bit_rate with
      | some v => intOfStr v
      | none => none
    let (sr, ch, codec) := firstAudioFields (data.streams.getD [])
    .ok { path := path, duration_s := d, sample_rate := sr, channels := ch,
          codec := codec, bit_rate := bit_rate }

/-- Embeds probe.py `probe_file` (lines 31-88) end to end: invoke the
external probing tool (opaque, supplied as `tool`), fail on non-zero exit via
`ffprobe_run`, decode the JSON output (opaque, supplied as `decode`; a decode
failure is `json.loads` raising), then parse via `probe_parse`. -/
def probe_file (tool : String → ToolResult) (decode : String → Except String FfprobeJson)
    (path : String) : Except String AudioInfo :=
  match ffprobe_run (tool path) with
  | .error e => .error e
  | .ok raw =>
    match decode raw with
    | .error e => .error e
    | .ok data => probe_parse path data

/-- Embeds probe.py `probe_files` (lines 91-95): probe each path in order,
accumulating the results; the first raised error aborts the loop and
propagates. -/
def probe_files (tool : String → ToolResult) (decode : String → Except String FfprobeJson) :
    List String → Except String (List AudioInfo)
  | [] => .ok []
  | p :: ps =>
    match probe_file tool decode p with
    | .error e => .error e
    | .ok info =>
      match probe_files tool decode ps with
      | .error e => .error e
      | .ok rest => .ok (info :: rest)

/-- Final component of a path, `pathlib.PurePath.name` with POSIX
separators: the part after the last `/`. -/
def pyName (p : String) : String :=
  ⟨pyNameAux [] p.data⟩
where
  /-- Accumulates the current component (reversed); a `/` resets it. -/
  pyNameAux (cur : List Char) : List Char → List Char
    | [] => cur.reverse
    | c :: rest => if c = '/' then pyNameAux [] rest else pyNameAux (c :: cur) rest

/-- `pathlib` splits the final component at its last dot, provided that dot
is neither the first nor the last character; returns (stem, suffix). -/
def stemSuffix (nm : String) : String × String :=
  let cs := nm.toList
  match lastDot 0 none cs with
  | some i =>
    if 0 < i ∧ i < cs.length - 1 then (⟨cs.take i⟩, ⟨cs.drop i⟩) else (nm, "")
  | none => (nm, "")
where
  /-- Index of the last `.` in the list, scanning from position `pos`. -/
  lastDot (pos : Nat) (best : Option Nat) : List Char → Option Nat
    | [] => best
    | c :: rest => lastDot (pos + 1) (if c = '.' then some pos else best) rest

/-- `pathlib.PurePath.stem` of the input path, as used by convert.py
line 35 (`in_path.stem`). -/
def pyStem (p : String) : String := (stemSuffix (pyName p)).1

/-- `pathlib.PurePath.suffix` of the input path, as used by convert.py
line 34 (`in_path.suffix`): the final component's extension including the
dot, or `""`. -/
def pySuffix (p : String) : String := (stemSuffix (pyName p)).2

/-- `pathlib` path join `dir / name`, as used by convert.py line 35. -/
def pyJoin (dir nm : String) : String := dir ++ "/" ++ nm

/-- Embeds convert.py `ConvertOptions` (lines 13-20). -/
structure ConvertOptions where
  out_dir : String
  sample_rate : Int := 48000
  channels : Int := 1
  bit_depth : Int := 16
  overwrite : Bool := false
  force_wav : Bool := true
deriving DecidableEq, Repr

/-- Embeds convert.py `_pcm_codec` (lines 23-27): the dict
`{16: "pcm_s16le", 24: "pcm_s24le", 32: "pcm_s32le"}`; a bit depth outside
its keys raises `ValueError("bit_depth must be one of 16, 24, 32")`. -/
def pcm_codec (bit_depth : Int) : Except String String :=
  if bit_depth = 16 then .ok "pcm_s16le"
  else if bit_depth = 24 then .ok "pcm_s24le"
  else if bit_depth = 32 then .ok "pcm_s32le"
  else .error "bit_depth must be one of 16, 24, 32"

/-- Observable side effects of `convert_file`, in execution order:
`opts.out_dir.mkdir(parents=True, exist_ok=True)` and
`subprocess.run(cmd, ...)`. -/
inductive Effect where
  | mkdirP (dir : String)
  | spawn (cmd : List String)
deriving DecidableEq, Repr

/-- Errors of convert.py `convert_file`: `ValueError` from `_pcm_codec`
(a configuration error) or `FFmpegError` from a non-zero ffmpeg exit. -/
inductive ConvErr where
  | config (msg : String)
  | ffmpeg (msg : String)
deriving DecidableEq, Repr

/-- Embeds convert.py `convert_file` (lines 30-51).  The external conversion
tool is opaque (`tool`); the returned list records the side effects in the
order the source performs them: mkdir first (line 32), then — only if the
codec resolution at line 42 did not raise — one subprocess spawn (line 48).
Non-zero exit raises `FFmpegError(p.stderr.strip() or "ffmpeg failed")`. -/
def convert_file (tool : List String → ToolResult) (in_path : String)
    (opts : ConvertOptions) : List Effect × Except ConvErr String :=
  let out_ext := if opts.force_wav then ".wav" else pySuffix in_path
  let out_path := pyJoin opts.out_dir (pyStem in_path ++ out_ext)
  let cmd := ["ffmpeg"]
  let cmd := cmd ++ [if opts.overwrite then "-y" else "-n"]
  let cmd := cmd ++ ["-i", in_path, "-vn", "-ac", toString opts.channels,
                     "-ar", toString opts.sample_rate]
  let codecArgs : Except String (List String) :=
    if pyLower out_ext = ".wav" then
      match pcm_codec opts.bit_depth with
      | .error e => .error e
      | .ok c => .ok ["-c:a", c]
    else .ok ["-c:a", "copy"]
  match codecArgs with
  | .error e => ([.mkdirP opts.out_dir], .error (.config e))
  | .ok args =>
    let cmd := cmd ++ args ++ [out_path]
    let p := tool cmd
    ([.mkdirP opts.out_dir, .spawn cmd],
     if p.returncode ≠ 0 then
       .error (.ffmpeg (if pyStrip p.stderr ≠ "" then pyStrip p.stderr else "ffmpeg failed"))
     else .ok out_path)

/-- Embeds window.py `ProgressEvent` (lines 32-36). -/
structure ProgressEvent where
  done : Nat
  total : Nat
  message : String
deriving DecidableEq, Repr

/-- The f-string `f"{idx}/{total} {verb} {p.name}"` of window.py lines 166
and 290 (`verb` is "Probed" or "Converted"). -/
def mkMsg (idx total : Nat) (verb fname : String) : String :=
  toString idx ++ "/" ++ toString total ++ " " ++ verb ++ " " ++ fname

/-- Loop body of the batch closures `fn` in window.py (`ProbeTab._run`
lines 160-167 and `ConvertTab._run` lines 284-291), with `enumerate(paths,
start=1)` carried as `idx`: apply `op` to the item; on an exception the loop
aborts with the already-emitted events; on success append the output, emit
one `ProgressEvent(idx, total, ...)`, and continue. -/
def runBatchAux (op : α → Except ε β) (verb : String) (nm : α → String)
    (total : Nat) : Nat → List α → List ProgressEvent × Except ε (List β)
  | _, [] => ([], .ok [])
  | idx, p :: ps =>
    match op p with
    | .error e => ([], .error e)
    | .ok b =>
      let ev : ProgressEvent := ⟨idx, total, mkMsg idx total verb (nm p)⟩
      match runBatchAux op verb nm total (idx + 1) ps with
      | (evs, .error e) => (ev :: evs, .error e)
      | (evs, .ok bs) => (ev :: evs, .ok (b :: bs))

/-- The batch closures `fn` of window.py (lines 160-167 and 284-291) as a
whole: `total = len(paths)`, items processed strictly in order starting at
`idx = 1`; returns the ordered list of emitted progress events together with
the closure's outcome (ordered output list, or the first raised error). -/
def runBatch (op : α → Except ε β) (verb : String) (nm : α → String)
    (paths : List α) : List ProgressEvent × Except ε (List β) :=
  runBatchAux op verb nm paths.length 1 paths

/-- Embeds window.py `Worker.run` (lines 47-52): call `fn`; on success emit
`finished(out, None)`, on any exception emit `finished(None, e)`.  The
returned list is the ordered sequence of `finished` emissions. -/
def workerRun (fnResult : Except ε α) : List (Option α × Option ε) :=
  match fnResult with
  | .ok out => [(some out, none)]
  | .error e => [(none, some e)]

/-- Signal-wiring state of one window.py `JobController` (lines 55-83),
with workers identified by the order in which `start` created them.
`tracked` is the `self._thread`/`self._worker` pair (by worker id);
`finConns` is the set (in connection order) of workers `w` for which
`w.finished.connect(self.finished)` (line 71) is in place — a Qt connection
persists until explicitly disconnected or the sender is destroyed, and the
worker is destroyed only by its own `deleteLater` AFTER its `finished`
emission has been queued to the controller's thread. -/
structure ControllerState where
  tracked : Option Nat
  finConns : List Nat
deriving DecidableEq, Repr

/-- A freshly constructed `JobController` (lines 59-62): no thread, no
worker, no connections. -/
def JobController.initState : ControllerState := ⟨none, []⟩

/-- Embeds `JobController.stop` (lines 79-83): quit the tracked thread's
event loop and drop the `_thread`/`_worker` references.  No signal is
disconnected and the in-flight worker is not destroyed, so `finConns` is
unchanged. -/
def JobController.stop (s : ControllerState) : ControllerState :=
  { s with tracked := none }

/-- Embeds `JobController.start` (lines 64-77) for a fresh worker id `w`:
first `self.stop()`, then create the worker, connect
`w.finished.connect(self.finished)`, and track it. -/
def JobController.start (w : Nat) (s : ControllerState) : ControllerState :=
  let s := JobController.stop s
  { tracked := some w, finConns := s.finConns ++ [w] }

/-- Whether a `finished` emission by worker `w` reaches the listeners
connected to the controller's own `finished` signal: it does exactly when
the `w.finished.connect(self.finished)` connection of line 71 is still in
place. -/
def deliversFinished (s : ControllerState) (w : Nat) : Bool :=
  s.finConns.contains w

/-- Whether a progress event produced by the batch closure of worker `w`
reaches the listeners connected to the controller's `progressed` signal.
The closures of window.py lines 166 and 290 call
`self.controller.progressed.emit(...)` directly on the controller's OWN
signal, bypassing the worker and any tracking state, so delivery does not
depend on the controller state or on which worker is tracked. -/
def deliversProgress (_s : ControllerState) (_w : Nat) : Bool :=
  true

/-- Progress-event trace the batch loop produces on a run of consecutive
successes, starting at 1-based index `idx` with the fixed batch size
`total` (used to state and prove properties of `runBatchAux`). -/
def okEvents (verb : String) (nm : α → String) (total : Nat) :
    Nat → List α → List ProgressEvent
  | _, [] => []
  | idx, p :: ps =>
    ⟨idx, total, mkMsg idx total verb (nm p)⟩ :: okEvents verb nm total (idx + 1) ps

/-- Conversion-tool stub: every invocation exits 0 with empty output. -/
def okTool : List String → ToolResult := fun _ => ⟨0, "", ""⟩

/-- Probing-tool stub: the path "bad.mp3" exits 1 with stderr "boom", every
other path exits 0. -/
def boomTool : String → ToolResult :=
  fun p => if p = "bad.mp3" then ⟨1, "", "boom"⟩ else ⟨0, "{}", ""⟩

/-- JSON-decoder stub: every document decodes to a format object whose only
key is a numeric duration. -/
def constDecode : String → Except String FfprobeJson :=
  fun _ => .ok { format := some { duration := some "1.0" } }

/-- Batch-operation stub on ℕ: items below 3 succeed, others raise "boom". -/
def failingOp : Nat → Except String Nat :=
  fun n => if n < 3 then .ok (n * 10) else .error "boom"

/-- Default options: force-WAV on, bit depth 16, output directory "out". -/
def optsWav : ConvertOptions := { out_dir := "out" }

/-- Options with force-WAV off (input extension preserved). -/
def optsKeepExt : ConvertOptions := { out_dir := "out", force_wav := false }

/-- Options with an unsupported bit depth and force-WAV off. -/
def optsNoWav : ConvertOptions := { out_dir := "out", bit_depth := 20, force_wav := false }

/-- Options with an unsupported bit depth and force-WAV on. -/
def optsWav20 : ConvertOptions := { out_dir := "out", bit_depth := 20 }

/-- Probe document carrying only a numeric container duration: no bit rate,
no streams. -/
def durOnlyDoc : FfprobeJson := { format := some { duration := some "12.5" } }

/-- Probe document from the spec's round-trip example, preceded by a video
stream that must be ignored. -/
def roundTripDoc : FfprobeJson :=
  { format := some { duration := some "12.5" },
    streams := some
      [ { codec_type := some "video", codec_name := some "h264" },
        { codec_type := some "audio", codec_name := some "pcm_s16le",
          sample_rate := some "44100", channels := some "2" } ] }

lemma runBatchAux_allOk (op : α → Except ε β) (f : α → β) (verb : String)
    (nm : α → String) (total : Nat) :
    ∀ (idx : Nat) (paths : List α), (∀ p ∈ paths, op p = Except.ok (f p)) →
      runBatchAux op verb nm total idx paths
        = (okEvents verb nm total idx paths, Except.ok (paths.map f)) := by
  intro idx paths
  induction paths generalizing idx with
  | nil => intro _; rfl
  | cons p ps ih =>
    intro h
    have hp : op p = Except.ok (f p) := h p (List.mem_cons_self p ps)
    have hrest := ih (idx + 1) (fun q hq => h q (List.mem_cons_of_mem p hq))
    simp [runBatchAux, hp, hrest, okEvents]

lemma runBatchAux_firstFail (op : α → Except ε β) (verb : String)
    (nm : α → String) (total : Nat) (e : ε) (pk : α) (post : List α)
    (hfail : op pk = Except.error e) :
    ∀ (idx : Nat) (pre : List α), (∀ p ∈ pre, ∃ b, op p = Except.ok b) →
      (runBatchAux op verb nm total idx (pre ++ pk :: post)).2 = Except.error e ∧
      (runBatchAux op verb nm total idx (pre ++ pk :: post)).1.length = pre.length := by
  intro idx pre
  induction pre generalizing idx with
  | nil =>
    intro _
    simp [runBatchAux, hfail]
  | cons q pre ih =>
    intro h
    obtain ⟨b, hb⟩ := h q (List.mem_cons_self q pre)
    obtain ⟨h1, h2⟩ := ih (idx + 1) (fun r hr => h r (List.mem_cons_of_mem q hr))
    simp only [List.cons_append, runBatchAux, hb]
    cases hr : runBatchAux op verb nm total (idx + 1) (pre ++ pk :: post) with
    | mk evs res =>
      rw [hr] at h1 h2
      simp only at h1 h2
      subst h1
      simpa using h2

lemma okEvents_length (verb : String) (nm : α → String) (total : Nat) :
    ∀ (idx : Nat) (ps : List α), (okEvents verb nm total idx ps).length = ps.length := by
  intro idx ps
  induction ps generalizing idx with
  | nil => rfl
  | cons p ps ih => simp [okEvents, ih]

lemma okEvents_get (verb : String) (nm : α → String) (total : Nat) :
    ∀ (idx : Nat) (ps : List α) (i : Nat)
      (h : i < (okEvents verb nm total idx ps).length) (h' : i < ps.length),
      (okEvents verb nm total idx ps).get ⟨i, h⟩
        = ⟨idx + i, total, mkMsg (idx + i) total verb (nm (ps.get ⟨i, h'⟩))⟩ := by
  intro idx ps
  induction ps generalizing idx with
  | nil => intro i h h'; exact absurd h' (by simp)
  | cons p ps ih =>
    intro i h h'
    cases i with
    | zero => simp [okEvents]
    | succ j =>
      have hlen : j < (okEvents verb nm total (idx + 1) ps).length := by
        simpa [okEvents] using h
      have hlen' : j < ps.length := by simpa using h'
      have harith : idx + 1 + j = idx + (j + 1) := by omega
      simp only [okEvents, List.get_cons_succ]
      rw [ih (idx + 1) j hlen hlen', harith]

lemma firstAudioFields_eq_find (ss : List StreamObj) :
    firstAudioFields ss =
      match ss.find? (fun s => s.codec_type == some "audio") with
      | some s =>
        ((match s.sample_rate with
          | some w => intOfStr w
          | none => none),
         (match s.channels with
          | some w => intOfStr w
          | none => none),
         s.codec_name)
      | none => (none, none, none) := by
  induction ss with
  | nil => rfl
  | cons s rest ih =>
    by_cases h : s.codec_type = some "audio"
    · simp [firstAudioFields, List.find?, h]
    · simp only [firstAudioFields, if_neg h, ih]
      have hb : (s.codec_type == some "audio") = false := by
        simpa using h
      simp [List.find?, hb]

lemma convert_snd_ok (tool : List String → ToolResult) (in_path : String)
    (opts : ConvertOptions) (o : String)
    (h : (convert_file tool in_path opts).2 = Except.ok o) :
    o = pyJoin opts.out_dir
        (pyStem in_path ++ (if opts.force_wav then ".wav" else pySuffix in_path)) := by
  simp only [convert_file] at h
  split at h
  · simp at h
  · repeat' split at h
    all_goals simp_all


/-- C1 counterexample: start job 0, then supersede it with job 1.  The
claim says no event originating from job 0 may reach the controller's
listeners after `start()` returns for job 1 — but worker 0's `finished`
connection from line 71 is still in place (stop() disconnects nothing), and
progress events are emitted directly on the controller's own `progressed`
signal, so both kinds of stale events from job 0 are still delivered. -/
theorem stale_job_events_still_delivered_cex :
    deliversFinished (JobController.start 1 (JobController.start 0 JobController.initState)) 0
      = true ∧
    deliversProgress (JobController.start 1 (JobController.start 0 JobController.initState)) 0
      = true := by
  constructor <;> rfl

/-- C1 (amended): after `start()` returns for a new job, events from the
superseded job remain deliverable — `JobController.start`/`stop` only forget
the thread and worker references; the superseded worker's `finished` signal
stays connected to the controller's `finished` signal, and the batch
closures emit progress directly on the controller's own `progressed`
signal, so the controller does not discard stale callbacks. -/
theorem start_does_not_discard_stale_callbacks (s : ControllerState) (a b : Nat) :
    deliversFinished (JobController.start b (JobController.start a s)) a = true ∧
    deliversProgress (JobController.start b (JobController.start a s)) a = true := by
  refine ⟨?_, rfl⟩
  simp [deliversFinished, JobController.start, JobController.stop]

/-- C6: `probe_parse` fails with "Could not determine duration" whenever the
`format.duration` key is absent or its value is non-numeric, regardless of
every other field; and whenever the duration value parses, the probe
succeeds and carries exactly that duration, whatever else is missing. -/
theorem probe_duration_policy (p : String) (data : FfprobeJson) :
    ((data.format.getD {}).duration = none →
        probe_parse p data = Except.error "Could not determine duration") ∧
    (∀ v, (data.format.getD {}).duration = some v → floatOfStr v = none →
        probe_parse p data = Except.error "Could not determine duration") ∧
    (∀ v q, (data.format.getD {}).duration = some v → floatOfStr v = some q →
        ∃ info, probe_parse p data = Except.ok info ∧ info.duration_s = q) := by
  refine ⟨?_, ?_, ?_⟩
  · intro h
    simp [probe_parse, h]
  · intro v hv hq
    simp [probe_parse, hv, hq]
  · intro v q hv hq
    simp only [probe_parse, hv, hq]
    exact ⟨_, rfl, rfl⟩

/-- C6 witness: a document whose format object carries only
`duration = "12.5"` (no bit rate, no streams at all) probes successfully
with duration 25/2. -/
theorem probe_duration_policy_witness :
    ∃ info, probe_parse "f.wav" durOnlyDoc = Except.ok info ∧ info.duration_s = 25 / 2 :=
  (probe_duration_policy "f.wav" durOnlyDoc).2.2 "12.5" (25 / 2) rfl
    (by simp [floatOfStr, pyStrip, takeDigits]; norm_num)

/-- C7: when the duration parses, `probe_parse` returns a record whose
optional stream fields come from the FIRST stream whose `codec_type` is
"audio" (all other streams are ignored), with missing or non-numeric
optional values resolving to `none`; when no audio stream exists, all three
stream fields are `none` while the duration still comes from the container
format object. -/
theorem probe_uses_first_audio_stream (p : String) (data : FfprobeJson) (v : String) (q : ℚ)
    (hv : (data.format.getD {}).duration = some v) (hq : floatOfStr v = some q) :
    probe_parse p data =
      Except.ok
        { path := p
          duration_s := q
          sample_rate :=
            match (data.streams.getD []).find? (fun s => s.codec_type == some "audio") with
            | some s =>
              match s.sample_rate with
              | some w => intOfStr w
              | none => none
            | none => none
          channels :=
            match (data.streams.getD []).find? (fun s => s.codec_type == some "audio") with
            | some s =>
              match s.channels with
              | some w => intOfStr w
              | none => none
            | none => none
          codec :=
            match (data.streams.getD []).find? (fun s => s.codec_type == some "audio") with
            | some s => s.codec_name
            | none => none
          bit_rate :=
            match (data.format.getD {}).bit_rate with
            | some w => intOfStr w
            | none => none } := by
  simp only [probe_parse, hv, hq]
  rw [firstAudioFields_eq_find]
  cases (data.streams.getD []).find? (fun s => s.codec_type == some "audio") <;> rfl

/-- C7 witness: the spec's round-trip document, preceded by a video stream
that must be skipped, probes to duration 25/2, sample rate 44100, channels
2, codec "pcm_s16le". -/
theorem probe_uses_first_audio_stream_witness :
    probe_parse "song.wav" roundTripDoc =
      Except.ok
        { path := "song.wav", duration_s := 25 / 2, sample_rate := some 44100,
          channels := some 2, codec := some "pcm_s16le", bit_rate := none } := by
  have h := probe_uses_first_audio_stream "song.wav" roundTripDoc "12.5" (25 / 2) rfl
    (by simp [floatOfStr, pyStrip, takeDigits]; norm_num)
  rw [h]
  rfl

/-- C8: whatever the external tool does, when `convert_file` returns an
output path it is the configured output directory joined with the input's
stem, carrying extension ".wav" when force-WAV is set and the input's
original extension otherwise. -/
theorem convert_output_naming (tool : List String → ToolResult) (in_path : String)
    (opts : ConvertOptions) (effs : List Effect) (o : String)
    (h : convert_file tool in_path opts = (effs, Except.ok o)) :
    o = pyJoin opts.out_dir
        (pyStem in_path ++ (if opts.force_wav then ".wav" else pySuffix in_path)) :=
  convert_snd_ok tool in_path opts o (by rw [h])

/-- C8 witness: `music/foo.mp3` converts to `out/foo.wav` with force-WAV on
and to `out/foo.mp3` with force-WAV off. -/
theorem convert_output_naming_witness :
    ("out/foo.wav"
        = pyJoin optsWav.out_dir
            (pyStem "music/foo.mp3"
              ++ (if optsWav.force_wav then ".wav" else pySuffix "music/foo.mp3"))) ∧
    ("out/foo.mp3"
        = pyJoin optsKeepExt.out_dir
            (pyStem "music/foo.mp3"
              ++ (if optsKeepExt.force_wav then ".wav" else pySuffix "music/foo.mp3"))) :=
  ⟨convert_output_naming okTool "music/foo.mp3" optsWav
      [Effect.mkdirP "out",
       Effect.spawn ["ffmpeg", "-n", "-i", "music/foo.mp3", "-vn", "-ac", "1",
                     "-ar", "48000", "-c:a", "pcm_s16le", "out/foo.wav"]]
      "out/foo.wav" (by rfl),
   convert_output_naming okTool "music/foo.mp3" optsKeepExt
      [Effect.mkdirP "out",
       Effect.spawn ["ffmpeg", "-n", "-i", "music/foo.mp3", "-vn", "-ac", "1",
                     "-ar", "48000", "-c:a", "copy", "out/foo.mp3"]]
      "out/foo.mp3" (by rfl)⟩

/-- C2: probe batch with a failing item.  If every item before `pk` probes
successfully and the external tool exits non-zero on `pk` with non-blank
stderr, the batch closure's outcome is exactly that single failure — the
`FFprobeError` carrying the stripped stderr — and exactly one progress event
was emitted per successful item before the failure, none after it, with the
items after `pk` never contributing an event. -/
theorem probe_batch_halts_at_first_failure (tool : String → ToolResult)
    (decode : String → Except String FfprobeJson) (pre post : List String) (pk : String)
    (hpre : ∀ p ∈ pre, ∃ a, probe_file tool decode p = Except.ok a)
    (hrc : (tool pk).returncode ≠ 0)
    (hst : pyStrip (tool pk).stderr ≠ "") :
    (runBatch (probe_file tool decode) "Probed" pyName (pre ++ pk :: post)).2
        = Except.error (pyStrip (tool pk).stderr) ∧
    (runBatch (probe_file tool decode) "Probed" pyName (pre ++ pk :: post)).1.length
        = pre.length := by
  have hfail : probe_file tool decode pk = Except.error (pyStrip (tool pk).stderr) := by
    unfold probe_file ffprobe_run
    rw [if_pos hrc, if_pos hst]
  exact runBatchAux_firstFail (probe_file tool decode) "Probed" pyName
    (pre ++ pk :: post).length (pyStrip (tool pk).stderr) pk post hfail 1 pre hpre

/-- C2 witness: with a stub tool where "bad.mp3" exits 1 with stderr "boom"
and every other path succeeds, the batch over ["a.mp3", "bad.mp3", "c.mp3"]
fails with exactly the message "boom" and emitted exactly one progress event
(for the one item before the failure). -/
theorem probe_batch_halts_at_first_failure_witness :
    (runBatch (probe_file boomTool constDecode) "Probed" pyName
        ["a.mp3", "bad.mp3", "c.mp3"]).2 = Except.error "boom" ∧
    (runBatch (probe_file boomTool constDecode) "Probed" pyName
        ["a.mp3", "bad.mp3", "c.mp3"]).1.length = 1 :=
  probe_batch_halts_at_first_failure boomTool constDecode ["a.mp3"] ["c.mp3"] "bad.mp3"
    (by
      intro p hp
      simp only [List.mem_singleton] at hp
      subst hp
      exact ⟨_, rfl⟩)
    (by decide) (by decide)

/-- C3: batch over a non-empty list on which every item succeeds.  The
outcome is the ordered list of per-item outputs (input order preserved);
exactly one progress event is emitted per item; event i carries
done = i + 1 (the number of items completed so far) and total = the list
length; the done values are strictly increasing; and the last event's done
value equals the total. -/
theorem batch_full_success_progress (op : α → Except ε β) (f : α → β)
    (verb : String) (nm : α → String) (paths : List α)
    (hne : paths ≠ []) (hok : ∀ p ∈ paths, op p = Except.ok (f p)) :
    (runBatch op verb nm paths).2 = Except.ok (paths.map f) ∧
    (runBatch op verb nm paths).1.length = paths.length ∧
    (∀ (i : Nat) (h : i < (runBatch op verb nm paths).1.length),
        ((runBatch op verb nm paths).1.get ⟨i, h⟩).done = i + 1 ∧
        ((runBatch op verb nm paths).1.get ⟨i, h⟩).total = paths.length) ∧
    (∀ (i j : Nat) (hi : i < (runBatch op verb nm paths).1.length)
        (hj : j < (runBatch op verb nm paths).1.length), i < j →
        ((runBatch op verb nm paths).1.get ⟨i, hi⟩).done
          < ((runBatch op verb nm paths).1.get ⟨j, hj⟩).done) ∧
    (∀ (h : (runBatch op verb nm paths).1.length - 1
          < (runBatch op verb nm paths).1.length),
        ((runBatch op verb nm paths).1.get
            ⟨(runBatch op verb nm paths).1.length - 1, h⟩).done = paths.length) := by
  have key : runBatch op verb nm paths
      = (okEvents verb nm paths.length 1 paths, Except.ok (paths.map f)) :=
    runBatchAux_allOk op f verb nm paths.length 1 paths hok
  rw [key]
  have hlen := okEvents_length verb nm paths.length 1 paths
  refine ⟨rfl, hlen, ?_, ?_, ?_⟩
  · intro i h
    have h' : i < paths.length := by rw [hlen] at h; exact h
    rw [okEvents_get verb nm paths.length 1 paths i h h']
    refine ⟨?_, rfl⟩
    show 1 + i = i + 1
    omega
  · intro i j hi hj hij
    have hi' : i < paths.length := by rw [hlen] at hi; exact hi
    have hj' : j < paths.length := by rw [hlen] at hj; exact hj
    rw [okEvents_get verb nm paths.length 1 paths i hi hi',
        okEvents_get verb nm paths.length 1 paths j hj hj']
    simpa using hij
  · intro h
    have hpos : 0 < paths.length := by
      cases paths with
      | nil => exact absurd rfl hne
      | cons p ps => simp
    have h' : (okEvents verb nm paths.length 1 paths).length - 1 < paths.length := by
      rw [hlen]; omega
    rw [okEvents_get verb nm paths.length 1 paths _ h h']
    show 1 + ((okEvents verb nm paths.length 1 paths).length - 1) = paths.length
    omega

/-- C3 witness: the always-successful batch over [1, 2, 3] returns the
outputs in input order and emitted events 1/3, 2/3, 3/3. -/
theorem batch_full_success_progress_witness :
    (runBatch (fun n => Except.ok (n * 10) : Nat → Except String Nat)
        "Probed" toString [1, 2, 3]).2 = Except.ok [10, 20, 30] ∧
    (runBatch (fun n => Except.ok (n * 10) : Nat → Except String Nat)
        "Probed" toString [1, 2, 3]).1.length = 3 := by
  have h := batch_full_success_progress
    ((fun n => Except.ok (n * 10)) : Nat → Except String Nat) (fun n => n * 10)
    "Probed" toString [1, 2, 3] (by decide) (by intro p _; rfl)
  exact ⟨h.1, h.2.1⟩

/-- C4: for every batch function run under the controller, the worker emits
exactly one terminal `finished` event: `(out, None)` carrying the batch
result on success, `(None, e)` carrying the captured error on failure — a
worker-context exception never escapes, it becomes the terminal failure. -/
theorem worker_one_terminal_event (op : α → Except ε β) (verb : String)
    (nm : α → String) (paths : List α) :
    (workerRun ((runBatch op verb nm paths).2)).length = 1 ∧
    (∀ bs, (runBatch op verb nm paths).2 = Except.ok bs →
        workerRun ((runBatch op verb nm paths).2) = [(some bs, none)]) ∧
    (∀ e, (runBatch op verb nm paths).2 = Except.error e →
        workerRun ((runBatch op verb nm paths).2) = [(none, some e)]) := by
  refine ⟨?_, ?_, ?_⟩
  · cases h : (runBatch op verb nm paths).2 <;> simp [workerRun]
  · intro bs hbs
    rw [hbs]
    rfl
  · intro e he
    rw [he]
    rfl

/-- C4 witness: a batch whose third item raises "boom" delivers exactly the
single terminal failure event carrying that error. -/
theorem worker_one_terminal_event_witness :
    workerRun ((runBatch failingOp "Probed" toString [1, 2, 3]).2)
      = [(none, some "boom")] :=
  (worker_one_terminal_event failingOp "Probed" toString [1, 2, 3]).2.2 "boom" (by rfl)

/-- C5 counterexample: with bit depth 20 (not one of 16/24/32) but force-WAV
off and an .mp3 input, `convert_file` does NOT fail with a configuration
error — the codec check of convert.py line 42 sits inside the
`out_ext == ".wav"` branch, so the invalid bit depth is never validated, a
subprocess IS spawned (with `-c:a copy`), and the conversion succeeds. -/
theorem invalid_bit_depth_not_always_rejected_cex :
    optsNoWav.bit_depth = 20 ∧
    convert_file okTool "music/foo.mp3" optsNoWav
      = ([Effect.mkdirP "out",
          Effect.spawn ["ffmpeg", "-n", "-i", "music/foo.mp3", "-vn", "-ac", "1",
                        "-ar", "48000", "-c:a", "copy", "out/foo.mp3"]],
         Except.ok "out/foo.mp3") :=
  ⟨rfl, rfl⟩

/-- C5 (amended): the bit-depth/PCM-codec rule holds only on the `.wav`
output path.  When the output extension (lowercased) is ".wav" — always the
case when force-WAV is set — bit depths 16/24/32 put the matching PCM codec
(pcm_s16le / pcm_s24le / pcm_s32le) into the spawned command, and any other
integer bit depth makes `convert_file` fail with the configuration error
"bit_depth must be one of 16, 24, 32" with no subprocess spawned.  When the
output extension is not ".wav", the bit depth is not validated at all: the
codec is "copy" and no configuration error is possible. -/
theorem pcm_codec_selection (tool : List String → ToolResult) (in_path : String)
    (opts : ConvertOptions) :
    ((pyLower (if opts.force_wav then ".wav" else pySuffix in_path) = ".wav") →
      ((opts.bit_depth = 16 → ∃ cmd, (convert_file tool in_path opts).1
          = [Effect.mkdirP opts.out_dir, Effect.spawn cmd] ∧ "pcm_s16le" ∈ cmd) ∧
       (opts.bit_depth = 24 → ∃ cmd, (convert_file tool in_path opts).1
          = [Effect.mkdirP opts.out_dir, Effect.spawn cmd] ∧ "pcm_s24le" ∈ cmd) ∧
       (opts.bit_depth = 32 → ∃ cmd, (convert_file tool in_path opts).1
          = [Effect.mkdirP opts.out_dir, Effect.spawn cmd] ∧ "pcm_s32le" ∈ cmd) ∧
       (opts.bit_depth ≠ 16 → opts.bit_depth ≠ 24 → opts.bit_depth ≠ 32 →
          convert_file tool in_path opts
            = ([Effect.mkdirP opts.out_dir],
               Except.error (ConvErr.config "bit_depth must be one of 16, 24, 32"))))) ∧
    ((pyLower (if opts.force_wav then ".wav" else pySuffix in_path) ≠ ".wav") →
      ∃ cmd, (convert_file tool in_path opts).1
          = [Effect.mkdirP opts.out_dir, Effect.spawn cmd] ∧ "copy" ∈ cmd ∧
        ∀ m, (convert_file tool in_path opts).2 ≠ Except.error (ConvErr.config m)) := by
  constructor
  · intro hw
    refine ⟨?_, ?_, ?_, ?_⟩
    · intro h16
      have hc : pcm_codec opts.bit_depth = Except.ok "pcm_s16le" := by rw [h16]; rfl
      simp only [convert_file, if_pos hw, hc]
      exact ⟨_, rfl, by simp⟩
    · intro h24
      have hc : pcm_codec opts.bit_depth = Except.ok "pcm_s24le" := by rw [h24]; rfl
      simp only [convert_file, if_pos hw, hc]
      exact ⟨_, rfl, by simp⟩
    · intro h32
      have hc : pcm_codec opts.bit_depth = Except.ok "pcm_s32le" := by rw [h32]; rfl
      simp only [convert_file, if_pos hw, hc]
      exact ⟨_, rfl, by simp⟩
    · intro h16 h24 h32
      have hc : pcm_codec opts.bit_depth
          = Except.error "bit_depth must be one of 16, 24, 32" := by
        simp only [pcm_codec, if_neg h16, if_neg h24, if_neg h32]
      simp only [convert_file, if_pos hw, hc]
  · intro hw
    simp only [convert_file, if_neg hw]
    refine ⟨_, rfl, by simp, ?_⟩
    intro m
    repeat' split
    all_goals simp

/-- C5 witness: with force-WAV on and bit depth 16, the output extension is
".wav" and the spawned command carries pcm_s16le. -/
theorem pcm_codec_selection_witness :
    ∃ cmd, (convert_file okTool "music/foo.mp3" optsWav).1
        = [Effect.mkdirP optsWav.out_dir, Effect.spawn cmd] ∧ "pcm_s16le" ∈ cmd :=
  ((pcm_codec_selection okTool "music/foo.mp3" optsWav).1 (by rfl)).1 rfl

/-- C9: `convert_file` performs the recursive, idempotent mkdir of the
output directory as its FIRST effect, before the bit-depth validation and
before any subprocess spawn; consequently, whether the call fails with a
configuration error (then mkdir is the only effect) or with a tool error
(then mkdir preceded the single spawn), the output directory has been
created — the filesystem is not left untouched on error. -/
theorem convert_mkdir_before_everything (tool : List String → ToolResult)
    (in_path : String) (opts : ConvertOptions) :
    (convert_file tool in_path opts).1.head? = some (Effect.mkdirP opts.out_dir) ∧
    (∀ m, (convert_file tool in_path opts).2 = Except.error (ConvErr.config m) →
        (convert_file tool in_path opts).1 = [Effect.mkdirP opts.out_dir]) ∧
    (∀ m, (convert_file tool in_path opts).2 = Except.error (ConvErr.ffmpeg m) →
        ∃ cmd, (convert_file tool in_path opts).1
          = [Effect.mkdirP opts.out_dir, Effect.spawn cmd]) := by
  by_cases hw : (pyLower (if opts.force_wav then ".wav" else pySuffix in_path) = ".wav")
  · cases hc : pcm_codec opts.bit_depth with
    | error e =>
      refine ⟨?_, ?_, ?_⟩ <;> simp only [convert_file, if_pos hw, hc]
      · trivial
      · intro m _
        trivial
      · intro m hm
        simp at hm
    | ok c =>
      refine ⟨?_, ?_, ?_⟩ <;> simp only [convert_file, if_pos hw, hc]
      · trivial
      · intro m hm
        repeat' split at hm
        all_goals simp at hm
      · intro m _
        exact ⟨_, rfl⟩
  · refine ⟨?_, ?_, ?_⟩ <;> simp only [convert_file, if_neg hw]
    · trivial
    · intro m hm
      repeat' split at hm
      all_goals simp at hm
    · intro m _
      exact ⟨_, rfl⟩

/-- C9 witness: at bit depth 20 with force-WAV on, `convert_file` fails with
the configuration error, and its effect list is exactly the mkdir of the
output directory — created despite the failure, with no spawn. -/
theorem convert_mkdir_before_everything_witness :
    (convert_file okTool "a.mp3" optsWav20).1 = [Effect.mkdirP optsWav20.out_dir] :=
  (convert_mkdir_before_everything okTool "a.mp3" optsWav20).2.1
    "bit_depth must be one of 16, 24, 32" rfl

/-- C10: the output path computed by `convert_file` depends only on the
input's stem (and, when force-WAV is off, its suffix) — never on the input's
directory: whenever two inputs share a stem under force-WAV, any successful
outputs coincide.  Concretely, the distinct inputs a/foo.mp3, b/foo.mp3 and
a/foo.flac all convert to the identical output path out/foo.wav, so later
batch items silently target the same output file as earlier ones. -/
theorem convert_output_collision :
    (∀ (tool : List String → ToolResult) (opts : ConvertOptions) (p q o o' : String),
        opts.force_wav = true → pyStem p = pyStem q →
        (convert_file tool p opts).2 = Except.ok o →
        (convert_file tool q opts).2 = Except.ok o' → o = o') ∧
    ("a/foo.mp3" ≠ "b/foo.mp3" ∧
      (convert_file okTool "a/foo.mp3" optsWav).2 = Except.ok "out/foo.wav" ∧
      (convert_file okTool "b/foo.mp3" optsWav).2 = Except.ok "out/foo.wav") ∧
    ("a/foo.mp3" ≠ "a/foo.flac" ∧
      (convert_file okTool "a/foo.flac" optsWav).2 = Except.ok "out/foo.wav") := by
  refine ⟨?_, ⟨by decide, rfl, rfl⟩, ⟨by decide, rfl⟩⟩
  intro tool opts p q o o' hfw hstem ho ho'
  rw [convert_snd_ok tool p opts o ho, convert_snd_ok tool q opts o' ho', hfw, hstem]
  simp

/-- C10 witness: applying the dependence-only-on-stem clause to the distinct
concrete inputs a/foo.mp3 and b/foo.mp3 identifies their output paths. -/
theorem convert_output_collision_witness :
    ("out/foo.wav" : String) = "out/foo.wav" :=
  convert_output_collision.1 okTool optsWav "a/foo.mp3" "b/foo.mp3"
    "out/foo.wav" "out/foo.wav" rfl rfl rfl rfl
